import Mathlib

/-!
Verification of the simple banking system (`src/main.py`).

Shallow embedding: the `SavingsAccount` class becomes a state structure with
explicit state passing.  Python dicts keyed by account numbers become
functions `Nat → Option _`; Python floats (used only as exact decimal
amounts) become `Rat`; `datetime.now()` becomes an explicit time argument
`now : Nat` supplied by the caller.  A Python method that can raise an
uncaught `KeyError` (the `transaction_history[...]` index inside
`deposit`/`withdraw`) returns `Option`, with `none` modelling the exception.
The login/logout session handling lives in `main()`'s menu branches in the
source; it is embedded as the `login`/`logout` operations on the same state.
-/

/-- One entry of the `savings_accounts` dict: `{"name": ..., "balance": ...}`. -/
structure AccountInfo where
  name : String
  balance : Rat
  deriving DecidableEq

/-- The `"type"` field of a transaction-history entry. -/
inductive TxType where
  | Opening
  | Deposit
  | Withdrawal
  deriving DecidableEq

/-- One entry of a `transaction_history` list:
`{"type": ..., "amount": ..., "timestamp": ...}`. -/
structure TransactionRecord where
  type : TxType
  amount : Rat
  timestamp : Nat
  deriving DecidableEq

/-- The state of one `SavingsAccount` ledger instance (`SavingsAccount.__init__`):
both dicts, the session slot `current_account_number`, and the
`account_counter` drawn once by `randint` at construction. -/
structure SavingsAccount where
  savings_accounts : Nat → Option AccountInfo
  transaction_history : Nat → Option (List TransactionRecord)
  current_account_number : Option Nat
  account_counter : Nat

/-- `SavingsAccount.__init__`: empty dicts, no session; `counter` stands for
the value `randint(1000000000, 9999999999)` returned at construction. -/
def initState (counter : Nat) : SavingsAccount :=
  { savings_accounts := fun _ => none
    transaction_history := fun _ => none
    current_account_number := none
    account_counter := counter }

namespace SavingsAccount

/-- `SavingsAccount.generate_account_number`: returns `self.account_counter`. -/
def generate_account_number (s : SavingsAccount) : Nat :=
  s.account_counter

/-- `SavingsAccount.open_new_account`: writes the new account record and a
fresh one-element history under the generated number, returns that number. -/
def open_new_account (s : SavingsAccount) (name : String) (initial_deposit : Rat)
    (now : Nat) : Nat × SavingsAccount :=
  let account_number := s.generate_account_number
  (account_number,
    { s with
      savings_accounts := fun m =>
        if m = account_number then some ⟨name, initial_deposit⟩
        else s.savings_accounts m
      transaction_history := fun m =>
        if m = account_number then some [⟨TxType.Opening, initial_deposit, now⟩]
        else s.transaction_history m })

/-- `SavingsAccount.retrieve_account`: `self.savings_accounts.get(n, None)`. -/
def retrieve_account (s : SavingsAccount) (account_number : Nat) : Option AccountInfo :=
  s.savings_accounts account_number

/-- `SavingsAccount.deposit`.  The guard `current_account_number in
savings_accounts` is false when the slot is `None` (dict keys are ints), so
both `none` cases return `(False, unchanged)`.  If the guard passes but the
account has no `transaction_history` entry, the source raises `KeyError`:
that is the `none` result. -/
def deposit (s : SavingsAccount) (amount_deposit : Rat) (now : Nat) :
    Option (Bool × SavingsAccount) :=
  match s.current_account_number with
  | none => some (false, s)
  | some n =>
    match s.savings_accounts n with
    | none => some (false, s)
    | some info =>
      match s.transaction_history n with
      | none => none
      | some log =>
        some (true,
          { s with
            savings_accounts := fun m =>
              if m = n then some ⟨info.name, info.balance + amount_deposit⟩
              else s.savings_accounts m
            transaction_history := fun m =>
              if m = n then some (log ++ [⟨TxType.Deposit, amount_deposit, now⟩])
              else s.transaction_history m })

/-- `SavingsAccount.withdraw`: like `deposit` but additionally guarded by
`balance >= amount_withdraw`; an insufficient balance returns
`(False, unchanged)` without touching the history. -/
def withdraw (s : SavingsAccount) (amount_withdraw : Rat) (now : Nat) :
    Option (Bool × SavingsAccount) :=
  match s.current_account_number with
  | none => some (false, s)
  | some n =>
    match s.savings_accounts n with
    | none => some (false, s)
    | some info =>
      if info.balance ≥ amount_withdraw then
        match s.transaction_history n with
        | none => none
        | some log =>
          some (true,
            { s with
              savings_accounts := fun m =>
                if m = n then some ⟨info.name, info.balance - amount_withdraw⟩
                else s.savings_accounts m
              transaction_history := fun m =>
                if m = n then some (log ++ [⟨TxType.Withdrawal, amount_withdraw, now⟩])
                else s.transaction_history m })
      else some (false, s)

/-- `SavingsAccount.view_account_balance`:
`self.savings_accounts.get(current, {}).get("balance", None)`. -/
def view_account_balance (s : SavingsAccount) : Option Rat :=
  match s.current_account_number with
  | none => none
  | some n => (s.savings_accounts n).map AccountInfo.balance

/-- `SavingsAccount.view_transaction_history`:
`self.transaction_history.get(current, [])`; pure, returns the stored list. -/
def view_transaction_history (s : SavingsAccount) : List TransactionRecord :=
  match s.current_account_number with
  | none => []
  | some n => (s.transaction_history n).getD []

/-- The login branch of `main()` (menu choice "2"): fails if a session is
already active; otherwise looks the number up with `retrieve_account` and
sets `current_account_number` exactly when an account dict was found
(a found dict is non-empty, hence truthy in the source). -/
def login (s : SavingsAccount) (account_number : Nat) : Bool × SavingsAccount :=
  match s.current_account_number with
  | some _ => (false, s)
  | none =>
    match s.retrieve_account account_number with
    | some _ => (true, { s with current_account_number := some account_number })
    | none => (false, s)

/-- The logout branch of `main()` (sub-menu choice "5"):
`current_account_number = None`. -/
def logout (s : SavingsAccount) : SavingsAccount :=
  { s with current_account_number := none }

end SavingsAccount

/-- States reachable from a freshly constructed ledger by any sequence of the
public operations.  `deposit`/`withdraw` steps require the call not to have
raised (`some` result); the resulting state is taken from the result. -/
inductive Reachable (c : Nat) : SavingsAccount → Prop where
  | init : Reachable c (initState c)
  | openNew {s : SavingsAccount} {name : String} {d : Rat} {t : Nat} :
      Reachable c s → Reachable c (s.open_new_account name d t).2
  | login {s : SavingsAccount} {n : Nat} :
      Reachable c s → Reachable c (s.login n).2
  | logout {s : SavingsAccount} :
      Reachable c s → Reachable c s.logout
  | deposit {s s' : SavingsAccount} {a : Rat} {t : Nat} {b : Bool} :
      Reachable c s → s.deposit a t = some (b, s') → Reachable c s'
  | withdraw {s s' : SavingsAccount} {a : Rat} {t : Nat} {b : Bool} :
      Reachable c s → s.withdraw a t = some (b, s') → Reachable c s'

/-- Sum of the amounts of the records of kind `k` in a log (the measurement
used by the audit claim). -/
def sumAmt (k : TxType) : List TransactionRecord → Rat
  | [] => 0
  | r :: rest => (if r.type = k then r.amount else 0) + sumAmt k rest

/-- The well-formedness invariant maintained by every reachable ledger state:
the counter is the one drawn at construction, both dicts have the same key
set, the session (if any) names an existing account, every stored log is an
`Opening` record followed by non-`Opening` records, and every balance passes
the audit equation over its log. -/
structure LedgerInv (c : Nat) (s : SavingsAccount) : Prop where
  counter_eq : s.account_counter = c
  keys_eq : ∀ n, (s.savings_accounts n).isSome ↔ (s.transaction_history n).isSome
  session_ok : ∀ n, s.current_account_number = some n → (s.savings_accounts n).isSome
  log_shape : ∀ n l, s.transaction_history n = some l →
    ∃ a t rest, l = ⟨TxType.Opening, a, t⟩ :: rest ∧ ∀ r ∈ rest, r.type ≠ TxType.Opening
  audit : ∀ n info l, s.savings_accounts n = some info → s.transaction_history n = some l →
    info.balance =
      sumAmt TxType.Opening l + sumAmt TxType.Deposit l - sumAmt TxType.Withdrawal l

/-- States reachable when every opening deposit and every deposit amount in
the operation sequence is non-negative (withdrawal amounts unrestricted). -/
inductive ReachableNN (c : Nat) : SavingsAccount → Prop where
  | init : ReachableNN c (initState c)
  | openNew {s : SavingsAccount} {name : String} {d : Rat} {t : Nat} :
      ReachableNN c s → 0 ≤ d → ReachableNN c (s.open_new_account name d t).2
  | login {s : SavingsAccount} {n : Nat} :
      ReachableNN c s → ReachableNN c (s.login n).2
  | logout {s : SavingsAccount} :
      ReachableNN c s → ReachableNN c s.logout
  | deposit {s s' : SavingsAccount} {a : Rat} {t : Nat} {b : Bool} :
      ReachableNN c s → 0 ≤ a → s.deposit a t = some (b, s') → ReachableNN c s'
  | withdraw {s s' : SavingsAccount} {a : Rat} {t : Nat} {b : Bool} :
      ReachableNN c s → s.withdraw a t = some (b, s') → ReachableNN c s'

/-- States reachable when every deposit and every withdrawal amount in the
operation sequence is strictly positive (opening deposits unrestricted). -/
inductive ReachablePos (c : Nat) : SavingsAccount → Prop where
  | init : ReachablePos c (initState c)
  | openNew {s : SavingsAccount} {name : String} {d : Rat} {t : Nat} :
      ReachablePos c s → ReachablePos c (s.open_new_account name d t).2
  | login {s : SavingsAccount} {n : Nat} :
      ReachablePos c s → ReachablePos c (s.login n).2
  | logout {s : SavingsAccount} :
      ReachablePos c s → ReachablePos c s.logout
  | deposit {s s' : SavingsAccount} {a : Rat} {t : Nat} {b : Bool} :
      ReachablePos c s → 0 < a → s.deposit a t = some (b, s') → ReachablePos c s'
  | withdraw {s s' : SavingsAccount} {a : Rat} {t : Nat} {b : Bool} :
      ReachablePos c s → 0 < a → s.withdraw a t = some (b, s') → ReachablePos c s'

/-- A freshly constructed ledger whose `randint` drew 42. -/
def exState0 : SavingsAccount := initState 42

/-- The ledger after `open_new_account("Alice", 100)` at time 0. -/
def exState1 : SavingsAccount := (exState0.open_new_account "Alice" 100 0).2

/-- The ledger after additionally logging in to account 42. -/
def exState2 : SavingsAccount := (exState1.login 42).2

/-- The ledger after additionally depositing −1 at time 1. -/
def exStateNeg : SavingsAccount := ((exState2.deposit (-1) 1).getD (false, exState2)).2

/-- The ledger after instead depositing 5 at time 1. -/
def exState3 : SavingsAccount := ((exState2.deposit 5 1).getD (false, exState2)).2

theorem sumAmt_append (k : TxType) (l₁ l₂ : List TransactionRecord) :
    sumAmt k (l₁ ++ l₂) = sumAmt k l₁ + sumAmt k l₂ := by
  induction l₁ with
  | nil => simp [sumAmt]
  | cons r rest ih => simp [sumAmt, ih]; ring

theorem sumAmt_eq_zero {k : TxType} {l : List TransactionRecord}
    (h : ∀ r ∈ l, r.type ≠ k) : sumAmt k l = 0 := by
  induction l with
  | nil => rfl
  | cons r rest ih =>
    have hr : r.type ≠ k := h r (by simp)
    simp [sumAmt, hr, ih fun x hx => h x (by simp [hx])]

namespace SavingsAccount

theorem deposit_no_session {s : SavingsAccount} (h : s.current_account_number = none)
    (a : Rat) (t : Nat) : s.deposit a t = some (false, s) := by
  simp [deposit, h]

theorem deposit_no_account {s : SavingsAccount} {n : Nat}
    (h : s.current_account_number = some n) (h₂ : s.savings_accounts n = none)
    (a : Rat) (t : Nat) : s.deposit a t = some (false, s) := by
  simp [deposit, h, h₂]

theorem deposit_success {s : SavingsAccount} {n : Nat} {info : AccountInfo}
    {log : List TransactionRecord} (h : s.current_account_number = some n)
    (h₂ : s.savings_accounts n = some info) (h₃ : s.transaction_history n = some log)
    (a : Rat) (t : Nat) :
    s.deposit a t = some (true,
      { s with
        savings_accounts := fun m =>
          if m = n then some ⟨info.name, info.balance + a⟩ else s.savings_accounts m
        transaction_history := fun m =>
          if m = n then some (log ++ [⟨TxType.Deposit, a, t⟩])
          else s.transaction_history m }) := by
  simp [deposit, h, h₂, h₃]

theorem withdraw_no_session {s : SavingsAccount} (h : s.current_account_number = none)
    (a : Rat) (t : Nat) : s.withdraw a t = some (false, s) := by
  simp [withdraw, h]

theorem withdraw_no_account {s : SavingsAccount} {n : Nat}
    (h : s.current_account_number = some n) (h₂ : s.savings_accounts n = none)
    (a : Rat) (t : Nat) : s.withdraw a t = some (false, s) := by
  simp [withdraw, h, h₂]

theorem withdraw_insufficient {s : SavingsAccount} {n : Nat} {info : AccountInfo}
    (h : s.current_account_number = some n) (h₂ : s.savings_accounts n = some info)
    {a : Rat} (hlt : info.balance < a) (t : Nat) :
    s.withdraw a t = some (false, s) := by
  simp [withdraw, h, h₂, not_le.mpr hlt]

theorem withdraw_success {s : SavingsAccount} {n : Nat} {info : AccountInfo}
    {log : List TransactionRecord} (h : s.current_account_number = some n)
    (h₂ : s.savings_accounts n = some info) (h₃ : s.transaction_history n = some log)
    {a : Rat} (hle : a ≤ info.balance) (t : Nat) :
    s.withdraw a t = some (true,
      { s with
        savings_accounts := fun m =>
          if m = n then some ⟨info.name, info.balance - a⟩ else s.savings_accounts m
        transaction_history := fun m =>
          if m = n then some (log ++ [⟨TxType.Withdrawal, a, t⟩])
          else s.transaction_history m }) := by
  simp [withdraw, h, h₂, h₃, hle]

theorem deposit_crash {s : SavingsAccount} {n : Nat} {info : AccountInfo}
    (h : s.current_account_number = some n) (h₂ : s.savings_accounts n = some info)
    (h₃ : s.transaction_history n = none) (a : Rat) (t : Nat) :
    s.deposit a t = none := by
  simp [deposit, h, h₂, h₃]

theorem withdraw_crash {s : SavingsAccount} {n : Nat} {info : AccountInfo}
    (h : s.current_account_number = some n) (h₂ : s.savings_accounts n = some info)
    (h₃ : s.transaction_history n = none) {a : Rat} (hle : a ≤ info.balance) (t : Nat) :
    s.withdraw a t = none := by
  simp [withdraw, h, h₂, h₃, hle]

end SavingsAccount

theorem ledgerInv_init (c : Nat) : LedgerInv c (initState c) := by
  constructor
  · rfl
  · intro n; simp [initState]
  · intro n hn; simp [initState] at hn
  · intro n l hl; simp [initState] at hl
  · intro n info l hinfo _; simp [initState] at hinfo

theorem ledgerInv_open {c : Nat} {s : SavingsAccount} (h : LedgerInv c s)
    (name : String) (d : Rat) (t : Nat) :
    LedgerInv c (s.open_new_account name d t).2 := by
  constructor
  · exact h.counter_eq
  · intro n
    by_cases hn : n = s.account_counter
    · simp [SavingsAccount.open_new_account, SavingsAccount.generate_account_number, hn]
    · simpa [SavingsAccount.open_new_account, SavingsAccount.generate_account_number, hn]
        using h.keys_eq n
  · intro n hn
    simp only [SavingsAccount.open_new_account, SavingsAccount.generate_account_number] at hn ⊢
    by_cases hnc : n = s.account_counter
    · simp [hnc]
    · simpa [hnc] using h.session_ok n hn
  · intro n l hl
    simp only [SavingsAccount.open_new_account, SavingsAccount.generate_account_number] at hl
    by_cases hnc : n = s.account_counter
    · rw [if_pos hnc] at hl
      refine ⟨d, t, [], ?_, by simp⟩
      simpa using hl.symm
    · rw [if_neg hnc] at hl
      exact h.log_shape n l hl
  · intro n info l hinfo hl
    simp only [SavingsAccount.open_new_account, SavingsAccount.generate_account_number]
      at hinfo hl
    by_cases hnc : n = s.account_counter
    · rw [if_pos hnc] at hinfo hl
      obtain rfl : info = ⟨name, d⟩ := by simpa using hinfo.symm
      obtain rfl : l = [⟨TxType.Opening, d, t⟩] := by simpa using hl.symm
      simp [sumAmt]
    · rw [if_neg hnc] at hinfo hl
      exact h.audit n info l hinfo hl

theorem ledgerInv_login {c : Nat} {s : SavingsAccount} (h : LedgerInv c s) (n : Nat) :
    LedgerInv c (s.login n).2 := by
  rcases hcur : s.current_account_number with _ | m
  · rcases hacc : s.savings_accounts n with _ | info
    · simpa [SavingsAccount.login, SavingsAccount.retrieve_account, hcur, hacc] using h
    · simp only [SavingsAccount.login, SavingsAccount.retrieve_account, hcur, hacc]
      constructor
      · exact h.counter_eq
      · exact h.keys_eq
      · intro m hm
        simp only at hm
        obtain rfl : n = m := by simpa using hm
        simp [hacc]
      · exact h.log_shape
      · exact h.audit
  · simpa [SavingsAccount.login, hcur] using h

theorem ledgerInv_logout {c : Nat} {s : SavingsAccount} (h : LedgerInv c s) :
    LedgerInv c s.logout := by
  constructor
  · exact h.counter_eq
  · exact h.keys_eq
  · intro n hn
    simp [SavingsAccount.logout] at hn
  · exact h.log_shape
  · exact h.audit

/-- Appending one non-`Opening` record to the active account's log while
moving its balance by that record's signed contribution preserves the
invariant (shared by the `deposit` and `withdraw` success paths). -/
theorem ledgerInv_append {c : Nat} {s : SavingsAccount} {n : Nat} {info : AccountInfo}
    {log : List TransactionRecord} (h : LedgerInv c s)
    (hacc : s.savings_accounts n = some info) (hlog : s.transaction_history n = some log)
    (r : TransactionRecord) (hty : r.type ≠ TxType.Opening) (newbal : Rat)
    (hbal : newbal = info.balance + (if r.type = TxType.Deposit then r.amount else 0)
        - (if r.type = TxType.Withdrawal then r.amount else 0)) :
    LedgerInv c
      { s with
        savings_accounts := fun m =>
          if m = n then some ⟨info.name, newbal⟩ else s.savings_accounts m
        transaction_history := fun m =>
          if m = n then some (log ++ [r]) else s.transaction_history m } := by
  constructor
  · exact h.counter_eq
  · intro m
    by_cases hm : m = n
    · simp [hm]
    · simpa [hm] using h.keys_eq m
  · intro m hm
    simp only at hm
    have := h.session_ok m hm
    by_cases hmn : m = n
    · simp [hmn]
    · simpa [hmn] using this
  · intro m l hl
    simp only at hl
    by_cases hmn : m = n
    · rw [if_pos hmn] at hl
      obtain rfl : l = log ++ [r] := by simpa using hl.symm
      obtain ⟨a, t, rest, hlog', hrest⟩ := h.log_shape n log hlog
      refine ⟨a, t, rest ++ [r], by simp [hlog'], ?_⟩
      intro x hx
      rcases List.mem_append.mp hx with hx | hx
      · exact hrest x hx
      · simpa using (by simpa using hx : x = r) ▸ hty
    · rw [if_neg hmn] at hl
      exact h.log_shape m l hl
  · intro m info' l hinfo' hl
    simp only at hinfo' hl
    by_cases hmn : m = n
    · rw [if_pos hmn] at hinfo' hl
      obtain rfl : info' = ⟨info.name, newbal⟩ := by simpa using hinfo'.symm
      obtain rfl : l = log ++ [r] := by simpa using hl.symm
      have hold := h.audit n info log hacc hlog
      simp only [sumAmt_append]
      rcases hr : r.type with _ | _ | _
      · exact absurd hr hty
      · simp only [hbal, hr, sumAmt, if_pos rfl]
        simp [hold]
        ring
      · simp only [hbal, hr, sumAmt]
        simp [hold]
        ring
    · rw [if_neg hmn] at hinfo' hl
      exact h.audit m info' l hinfo' hl

theorem ledgerInv_deposit {c : Nat} {s s' : SavingsAccount} {a : Rat} {t : Nat} {b : Bool}
    (h : LedgerInv c s) (hd : s.deposit a t = some (b, s')) : LedgerInv c s' := by
  rcases hcur : s.current_account_number with _ | n
  · rw [SavingsAccount.deposit_no_session hcur a t] at hd
    obtain ⟨-, rfl⟩ : b = false ∧ s = s' := by simpa using hd
    exact h
  · rcases hacc : s.savings_accounts n with _ | info
    · rw [SavingsAccount.deposit_no_account hcur hacc a t] at hd
      obtain ⟨-, rfl⟩ : b = false ∧ s = s' := by simpa using hd
      exact h
    · rcases hlog : s.transaction_history n with _ | log
      · rw [SavingsAccount.deposit_crash hcur hacc hlog a t] at hd
        exact absurd hd (by simp)
      · rw [SavingsAccount.deposit_success hcur hacc hlog a t] at hd
        obtain ⟨-, rfl⟩ : b = true ∧ _ = s' := by simpa using hd
        exact ledgerInv_append h hacc hlog ⟨TxType.Deposit, a, t⟩ (by simp)
          (info.balance + a) (by simp)

theorem ledgerInv_withdraw {c : Nat} {s s' : SavingsAccount} {a : Rat} {t : Nat} {b : Bool}
    (h : LedgerInv c s) (hd : s.withdraw a t = some (b, s')) : LedgerInv c s' := by
  rcases hcur : s.current_account_number with _ | n
  · rw [SavingsAccount.withdraw_no_session hcur a t] at hd
    obtain ⟨-, rfl⟩ : b = false ∧ s = s' := by simpa using hd
    exact h
  · rcases hacc : s.savings_accounts n with _ | info
    · rw [SavingsAccount.withdraw_no_account hcur hacc a t] at hd
      obtain ⟨-, rfl⟩ : b = false ∧ s = s' := by simpa using hd
      exact h
    · by_cases hle : a ≤ info.balance
      · rcases hlog : s.transaction_history n with _ | log
        · rw [SavingsAccount.withdraw_crash hcur hacc hlog hle t] at hd
          exact absurd hd (by simp)
        · rw [SavingsAccount.withdraw_success hcur hacc hlog hle t] at hd
          obtain ⟨-, rfl⟩ : b = true ∧ _ = s' := by simpa using hd
          exact ledgerInv_append h hacc hlog ⟨TxType.Withdrawal, a, t⟩ (by simp)
            (info.balance - a) (by simp)
      · rw [SavingsAccount.withdraw_insufficient hcur hacc (not_le.mp hle) t] at hd
        obtain ⟨-, rfl⟩ : b = false ∧ s = s' := by simpa using hd
        exact h

/-- Every reachable state satisfies the ledger invariant. -/
theorem reachable_ledgerInv {c : Nat} {s : SavingsAccount} (h : Reachable c s) :
    LedgerInv c s := by
  induction h with
  | init => exact ledgerInv_init c
  | openNew _ ih => exact ledgerInv_open ih _ _ _
  | login _ ih => exact ledgerInv_login ih _
  | logout _ ih => exact ledgerInv_logout ih
  | deposit _ hd ih => exact ledgerInv_deposit ih hd
  | withdraw _ hd ih => exact ledgerInv_withdraw ih hd

/-- Both branches of `login` leave the account and history dicts untouched. -/
theorem login_frame (s : SavingsAccount) (n : Nat) :
    ((s.login n).2).savings_accounts = s.savings_accounts ∧
    ((s.login n).2).transaction_history = s.transaction_history := by
  rcases hcur : s.current_account_number with _ | m
  · rcases hacc : s.savings_accounts n with _ | info <;>
      simp [SavingsAccount.login, SavingsAccount.retrieve_account, hcur, hacc]
  · simp [SavingsAccount.login, hcur]

/-- Under non-negative opening and deposit amounts, every stored balance is
non-negative. -/
theorem reachableNN_nonneg {c : Nat} {s : SavingsAccount} (h : ReachableNN c s) :
    ∀ n info, s.savings_accounts n = some info → 0 ≤ info.balance := by
  induction h with
  | init => intro n info hinfo; simp [initState] at hinfo
  | @openNew s name d t _ hd ih =>
    intro n info hinfo
    simp only [SavingsAccount.open_new_account, SavingsAccount.generate_account_number]
      at hinfo
    by_cases hnc : n = s.account_counter
    · rw [if_pos hnc] at hinfo
      obtain rfl : info = ⟨name, d⟩ := by simpa using hinfo.symm
      exact hd
    · rw [if_neg hnc] at hinfo
      exact ih n info hinfo
  | @login s m _ ih =>
    intro n info hinfo
    rw [(login_frame s m).1] at hinfo
    exact ih n info hinfo
  | logout _ ih =>
    intro n info hinfo
    exact ih n info hinfo
  | @deposit s s' a t b _ ha hd ih =>
    rcases hcur : s.current_account_number with _ | n
    · rw [SavingsAccount.deposit_no_session hcur a t] at hd
      obtain ⟨-, rfl⟩ : b = false ∧ s = s' := by simpa using hd
      exact ih
    · rcases hacc : s.savings_accounts n with _ | info
      · rw [SavingsAccount.deposit_no_account hcur hacc a t] at hd
        obtain ⟨-, rfl⟩ : b = false ∧ s = s' := by simpa using hd
        exact ih
      · rcases hlog : s.transaction_history n with _ | log
        · rw [SavingsAccount.deposit_crash hcur hacc hlog a t] at hd
          exact absurd hd (by simp)
        · rw [SavingsAccount.deposit_success hcur hacc hlog a t] at hd
          obtain ⟨-, rfl⟩ : b = true ∧ _ = s' := by simpa using hd
          intro m info' hinfo'
          simp only at hinfo'
          by_cases hmn : m = n
          · rw [if_pos hmn] at hinfo'
            obtain rfl : info' = ⟨info.name, info.balance + a⟩ := by simpa using hinfo'.symm
            have := ih n info hacc
            simpa using add_nonneg this ha
          · rw [if_neg hmn] at hinfo'
            exact ih m info' hinfo'
  | @withdraw s s' a t b _ hd ih =>
    rcases hcur : s.current_account_number with _ | n
    · rw [SavingsAccount.withdraw_no_session hcur a t] at hd
      obtain ⟨-, rfl⟩ : b = false ∧ s = s' := by simpa using hd
      exact ih
    · rcases hacc : s.savings_accounts n with _ | info
      · rw [SavingsAccount.withdraw_no_account hcur hacc a t] at hd
        obtain ⟨-, rfl⟩ : b = false ∧ s = s' := by simpa using hd
        exact ih
      · by_cases hle : a ≤ info.balance
        · rcases hlog : s.transaction_history n with _ | log
          · rw [SavingsAccount.withdraw_crash hcur hacc hlog hle t] at hd
            exact absurd hd (by simp)
          · rw [SavingsAccount.withdraw_success hcur hacc hlog hle t] at hd
            obtain ⟨-, rfl⟩ : b = true ∧ _ = s' := by simpa using hd
            intro m info' hinfo'
            simp only at hinfo'
            by_cases hmn : m = n
            · rw [if_pos hmn] at hinfo'
              obtain rfl : info' = ⟨info.name, info.balance - a⟩ := by
                simpa using hinfo'.symm
              simpa using sub_nonneg.mpr hle
            · rw [if_neg hmn] at hinfo'
              exact ih m info' hinfo'
        · rw [SavingsAccount.withdraw_insufficient hcur hacc (not_le.mp hle) t] at hd
          obtain ⟨-, rfl⟩ : b = false ∧ s = s' := by simpa using hd
          exact ih

/-- Under strictly positive deposit and withdrawal amounts, every
non-`Opening` record stored in any log has a strictly positive amount. -/
theorem reachablePos_pos {c : Nat} {s : SavingsAccount} (h : ReachablePos c s) :
    ∀ n l, s.transaction_history n = some l →
      ∀ r ∈ l, r.type ≠ TxType.Opening → 0 < r.amount := by
  induction h with
  | init => intro n l hl; simp [initState] at hl
  | @openNew s name d t _ ih =>
    intro n l hl
    simp only [SavingsAccount.open_new_account, SavingsAccount.generate_account_number] at hl
    by_cases hnc : n = s.account_counter
    · rw [if_pos hnc] at hl
      obtain rfl : l = [⟨TxType.Opening, d, t⟩] := by simpa using hl.symm
      intro r hr hty
      obtain rfl : r = ⟨TxType.Opening, d, t⟩ := by simpa using hr
      exact absurd rfl hty
    · rw [if_neg hnc] at hl
      exact ih n l hl
  | @login s m _ ih =>
    intro n l hl
    rw [(login_frame s m).2] at hl
    exact ih n l hl
  | logout _ ih =>
    intro n l hl
    exact ih n l hl
  | @deposit s s' a t b _ ha hd ih =>
    rcases hcur : s.current_account_number with _ | n
    · rw [SavingsAccount.deposit_no_session hcur a t] at hd
      obtain ⟨-, rfl⟩ : b = false ∧ s = s' := by simpa using hd
      exact ih
    · rcases hacc : s.savings_accounts n with _ | info
      · rw [SavingsAccount.deposit_no_account hcur hacc a t] at hd
        obtain ⟨-, rfl⟩ : b = false ∧ s = s' := by simpa using hd
        exact ih
      · rcases hlog : s.transaction_history n with _ | log
        · rw [SavingsAccount.deposit_crash hcur hacc hlog a t] at hd
          exact absurd hd (by simp)
        · rw [SavingsAccount.deposit_success hcur hacc hlog a t] at hd
          obtain ⟨-, rfl⟩ : b = true ∧ _ = s' := by simpa using hd
          intro m l' hl'
          simp only at hl'
          by_cases hmn : m = n
          · rw [if_pos hmn] at hl'
            obtain rfl : l' = log ++ [⟨TxType.Deposit, a, t⟩] := by simpa using hl'.symm
            intro r hr hty
            rcases List.mem_append.mp hr with hr | hr
            · exact ih n log hlog r hr hty
            · obtain rfl : r = ⟨TxType.Deposit, a, t⟩ := by simpa using hr
              exact ha
          · rw [if_neg hmn] at hl'
            exact ih m l' hl'
  | @withdraw s s' a t b _ ha hd ih =>
    rcases hcur : s.current_account_number with _ | n
    · rw [SavingsAccount.withdraw_no_session hcur a t] at hd
      obtain ⟨-, rfl⟩ : b = false ∧ s = s' := by simpa using hd
      exact ih
    · rcases hacc : s.savings_accounts n with _ | info
      · rw [SavingsAccount.withdraw_no_account hcur hacc a t] at hd
        obtain ⟨-, rfl⟩ : b = false ∧ s = s' := by simpa using hd
        exact ih
      · by_cases hle : a ≤ info.balance
        · rcases hlog : s.transaction_history n with _ | log
          · rw [SavingsAccount.withdraw_crash hcur hacc hlog hle t] at hd
            exact absurd hd (by simp)
          · rw [SavingsAccount.withdraw_success hcur hacc hlog hle t] at hd
            obtain ⟨-, rfl⟩ : b = true ∧ _ = s' := by simpa using hd
            intro m l' hl'
            simp only at hl'
            by_cases hmn : m = n
            · rw [if_pos hmn] at hl'
              obtain rfl : l' = log ++ [⟨TxType.Withdrawal, a, t⟩] := by
                simpa using hl'.symm
              intro r hr hty
              rcases List.mem_append.mp hr with hr | hr
              · exact ih n log hlog r hr hty
              · obtain rfl : r = ⟨TxType.Withdrawal, a, t⟩ := by simpa using hr
                exact ha
            · rw [if_neg hmn] at hl'
              exact ih m l' hl'
        · rw [SavingsAccount.withdraw_insufficient hcur hacc (not_le.mp hle) t] at hd
          obtain ⟨-, rfl⟩ : b = false ∧ s = s' := by simpa using hd
          exact ih

/-- Claim C1: audit invariant — in every reachable ledger state, every stored
account's balance equals its transaction log's Opening amount plus the sum of
Deposit amounts minus the sum of Withdrawal amounts, after every sequence of
operations. -/
theorem C1_audit_invariant {c : Nat} {s : SavingsAccount} (h : Reachable c s)
    (n : Nat) (info : AccountInfo) (hacc : s.savings_accounts n = some info) :
    ∃ a t rest, s.transaction_history n = some (⟨TxType.Opening, a, t⟩ :: rest) ∧
      info.balance = a + sumAmt TxType.Deposit (⟨TxType.Opening, a, t⟩ :: rest)
        - sumAmt TxType.Withdrawal (⟨TxType.Opening, a, t⟩ :: rest) := by
  have hi := reachable_ledgerInv h
  obtain ⟨l, hl⟩ := Option.isSome_iff_exists.mp ((hi.keys_eq n).mp (by simp [hacc]))
  obtain ⟨a, t, rest, rfl, hrest⟩ := hi.log_shape n l hl
  refine ⟨a, t, rest, hl, ?_⟩
  have haudit := hi.audit n info _ hacc hl
  have hO : sumAmt TxType.Opening (⟨TxType.Opening, a, t⟩ :: rest) = a := by
    simp [sumAmt, sumAmt_eq_zero hrest]
  rw [hO] at haudit
  exact haudit

/-- Concrete run of claim C1 on a freshly opened account. -/
theorem C1_witness :
    ∃ a t rest,
      exState1.transaction_history 42 = some (⟨TxType.Opening, a, t⟩ :: rest) ∧
      (⟨"Alice", (100 : Rat)⟩ : AccountInfo).balance
        = a + sumAmt TxType.Deposit (⟨TxType.Opening, a, t⟩ :: rest)
          - sumAmt TxType.Withdrawal (⟨TxType.Opening, a, t⟩ :: rest) :=
  C1_audit_invariant (Reachable.openNew Reachable.init) 42 ⟨"Alice", 100⟩ rfl

/-- Claim C2: with an active session on an existing account, `withdraw` fails
exactly when the requested amount strictly exceeds the balance; failure
returns the state unchanged, and success (including amount = balance)
subtracts the amount and appends exactly one Withdrawal record. -/
theorem C2_withdraw_spec {c : Nat} {s : SavingsAccount} (h : Reachable c s)
    {n : Nat} {info : AccountInfo} (hcur : s.current_account_number = some n)
    (hacc : s.savings_accounts n = some info) (a : Rat) (t : Nat) :
    ∃ log, s.transaction_history n = some log ∧
      (info.balance < a → s.withdraw a t = some (false, s)) ∧
      (a ≤ info.balance → s.withdraw a t = some (true,
        { s with
          savings_accounts := fun m =>
            if m = n then some ⟨info.name, info.balance - a⟩ else s.savings_accounts m
          transaction_history := fun m =>
            if m = n then some (log ++ [⟨TxType.Withdrawal, a, t⟩])
            else s.transaction_history m })) := by
  have hi := reachable_ledgerInv h
  obtain ⟨log, hlog⟩ := Option.isSome_iff_exists.mp ((hi.keys_eq n).mp (by simp [hacc]))
  exact ⟨log, hlog, fun hlt => SavingsAccount.withdraw_insufficient hcur hacc hlt t,
    fun hle => SavingsAccount.withdraw_success hcur hacc hlog hle t⟩

/-- Concrete run of claim C2 on the logged-in example ledger. -/
theorem C2_witness :
    ∃ log, exState2.transaction_history 42 = some log ∧
      ((⟨"Alice", (100 : Rat)⟩ : AccountInfo).balance < 150 →
        exState2.withdraw 150 1 = some (false, exState2)) ∧
      ((150 : Rat) ≤ (⟨"Alice", (100 : Rat)⟩ : AccountInfo).balance →
        exState2.withdraw 150 1 = some (true,
          { exState2 with
            savings_accounts := fun m =>
              if m = 42 then
                some ⟨(⟨"Alice", (100 : Rat)⟩ : AccountInfo).name,
                  (⟨"Alice", (100 : Rat)⟩ : AccountInfo).balance - 150⟩
              else exState2.savings_accounts m
            transaction_history := fun m =>
              if m = 42 then some (log ++ [⟨TxType.Withdrawal, 150, 1⟩])
              else exState2.transaction_history m })) :=
  C2_withdraw_spec
    (Reachable.login (Reachable.openNew Reachable.init) : Reachable 42 exState2)
    (rfl : exState2.current_account_number = some 42)
    (rfl : exState2.savings_accounts 42 = some ⟨"Alice", 100⟩) 150 1

/-- Claim C3 as stated is false: `open_new_account` (and `deposit`) perform no
non-negativity check, so a reachable state can hold a negative balance.  Here
the account is opened with initial deposit −1. -/
theorem C3_counterexample :
    ¬ (∀ (c : Nat) (s : SavingsAccount), Reachable c s →
        ∀ n info, s.savings_accounts n = some info → 0 ≤ info.balance) := by
  intro hclaim
  have hr : Reachable 42 ((initState 42).open_new_account "Alice" (-1) 0).2 :=
    Reachable.openNew Reachable.init
  have h1 := hclaim 42 _ hr 42 ⟨"Alice", -1⟩ rfl
  have h2 : (0 : Rat) ≤ -1 := h1
  norm_num at h2

/-- Claim C3 (amended): provided every opening deposit and every deposit
amount in the operation sequence is non-negative, every reachable balance is
non-negative; and independently, a withdrawal that would leave the active
account's balance negative is rejected with the whole state (hence the log)
unchanged. -/
theorem C3_nonneg_invariant {c : Nat} {s : SavingsAccount} (h : ReachableNN c s) :
    (∀ n info, s.savings_accounts n = some info → 0 ≤ info.balance) ∧
    (∀ n info a t, s.current_account_number = some n →
      s.savings_accounts n = some info → info.balance - a < 0 →
      s.withdraw a t = some (false, s)) := by
  refine ⟨reachableNN_nonneg h, ?_⟩
  intro n info a t hcur hacc hneg
  exact SavingsAccount.withdraw_insufficient hcur hacc (by linarith) t

/-- Concrete run of the amended claim C3. -/
theorem C3_witness :
    (0 : Rat) ≤ (⟨"Alice", (100 : Rat)⟩ : AccountInfo).balance ∧
    exState2.withdraw 101 1 = some (false, exState2) :=
  ⟨(C3_nonneg_invariant
      (ReachableNN.openNew ReachableNN.init (by norm_num) : ReachableNN 42 exState1)).1
      42 ⟨"Alice", 100⟩ rfl,
   (C3_nonneg_invariant
      (ReachableNN.login (ReachableNN.openNew ReachableNN.init (by norm_num))
        : ReachableNN 42 exState2)).2
      42 ⟨"Alice", 100⟩ 101 1 rfl rfl (by show (100 : Rat) - 101 < 0; norm_num)⟩

/-- Claim C4: `generate_account_number` returns the construction-time counter
on every call, every `open_new_account` call returns that same number, and a
second open overwrites the same slot instead of adding a second entry. -/
theorem C4_account_number {c : Nat} {s : SavingsAccount} (h : Reachable c s) :
    s.generate_account_number = c ∧
    (∀ name d t, (s.open_new_account name d t).1 = c) ∧
    (∀ name₁ d₁ t₁ name₂ d₂ t₂,
      (((s.open_new_account name₁ d₁ t₁).2).open_new_account name₂ d₂ t₂).1
        = (s.open_new_account name₁ d₁ t₁).1 ∧
      ((((s.open_new_account name₁ d₁ t₁).2).open_new_account name₂ d₂ t₂).2).savings_accounts
        = fun m => if m = c then some ⟨name₂, d₂⟩ else s.savings_accounts m) := by
  have hc := (reachable_ledgerInv h).counter_eq
  refine ⟨hc, fun name d t => ?_, fun name₁ d₁ t₁ name₂ d₂ t₂ => ⟨?_, ?_⟩⟩
  · simp [SavingsAccount.open_new_account, SavingsAccount.generate_account_number, hc]
  · simp [SavingsAccount.open_new_account, SavingsAccount.generate_account_number, hc]
  · funext m
    simp only [SavingsAccount.open_new_account, SavingsAccount.generate_account_number, hc]
    by_cases hm : m = c <;> simp [hm]

/-- Concrete run of claim C4: opening Alice then Bob on the same ledger lands
both on account number 42, with Bob overwriting Alice's slot. -/
theorem C4_witness :
    exState0.generate_account_number = 42 ∧
    (exState0.open_new_account "Alice" 100 0).1 = 42 ∧
    (((exState0.open_new_account "Alice" 100 0).2).open_new_account "Bob" 5 1).1
      = (exState0.open_new_account "Alice" 100 0).1 ∧
    ((((exState0.open_new_account "Alice" 100 0).2).open_new_account "Bob" 5 1).2).savings_accounts
      = fun m => if m = 42 then some ⟨"Bob", 5⟩ else exState0.savings_accounts m :=
  ⟨(C4_account_number (Reachable.init : Reachable 42 exState0)).1,
   (C4_account_number (Reachable.init : Reachable 42 exState0)).2.1 "Alice" 100 0,
   ((C4_account_number (Reachable.init : Reachable 42 exState0)).2.2
      "Alice" 100 0 "Bob" 5 1).1,
   ((C4_account_number (Reachable.init : Reachable 42 exState0)).2.2
      "Alice" 100 0 "Bob" 5 1).2⟩

/-- Claim C5: with no active session, `deposit` and `withdraw` both return
failure and leave the whole ledger state unchanged, for every amount. -/
theorem C5_no_session_rejects {s : SavingsAccount}
    (h : s.current_account_number = none) (a : Rat) (t : Nat) :
    s.deposit a t = some (false, s) ∧ s.withdraw a t = some (false, s) :=
  ⟨SavingsAccount.deposit_no_session h a t, SavingsAccount.withdraw_no_session h a t⟩

/-- Concrete run of claim C5 on a ledger with an account but no session. -/
theorem C5_witness :
    exState1.deposit 5 1 = some (false, exState1) ∧
    exState1.withdraw 5 1 = some (false, exState1) :=
  C5_no_session_rejects rfl 5 1

/-- Claim C6: key-set invariant — in every reachable ledger state an account
number is a key of the transaction-log dict exactly when it is a key of the
account dict; preservation by every operation is what the reachability
induction establishes. -/
theorem C6_key_sets {c : Nat} {s : SavingsAccount} (h : Reachable c s) (n : Nat) :
    (s.savings_accounts n).isSome ↔ (s.transaction_history n).isSome :=
  (reachable_ledgerInv h).keys_eq n

/-- Concrete run of claim C6 at the freshly opened account's key and at an
absent key. -/
theorem C6_witness :
    ((exState1.savings_accounts 42).isSome ↔ (exState1.transaction_history 42).isSome) ∧
    ((exState1.savings_accounts 7).isSome ↔ (exState1.transaction_history 7).isSome) :=
  ⟨C6_key_sets (Reachable.openNew Reachable.init : Reachable 42 exState1) 42,
   C6_key_sets (Reachable.openNew Reachable.init : Reachable 42 exState1) 7⟩

/-- Claim C7: `login` with a session already active always fails and leaves
the session slot as it was, for every requested number; with no session it
fails without setting the slot when the number is absent, and sets the slot
to the requested number when it is present. -/
theorem C7_login_spec (s : SavingsAccount) (n : Nat) :
    (∀ m, s.current_account_number = some m → s.login n = (false, s)) ∧
    (s.current_account_number = none → s.savings_accounts n = none →
      s.login n = (false, s)) ∧
    (∀ info, s.current_account_number = none → s.savings_accounts n = some info →
      s.login n = (true, { s with current_account_number := some n })) := by
  refine ⟨?_, ?_, ?_⟩
  · intro m hm
    simp [SavingsAccount.login, hm]
  · intro h₁ h₂
    simp [SavingsAccount.login, SavingsAccount.retrieve_account, h₁, h₂]
  · intro info h₁ h₂
    simp [SavingsAccount.login, SavingsAccount.retrieve_account, h₁, h₂]

/-- Concrete runs of claim C7: rejected re-login, rejected unknown number,
and a successful login. -/
theorem C7_witness :
    exState2.login 7 = (false, exState2) ∧
    exState1.login 7 = (false, exState1) ∧
    exState1.login 42 = (true, { exState1 with current_account_number := some 42 }) :=
  ⟨(C7_login_spec exState2 7).1 42 rfl,
   (C7_login_spec exState1 7).2.1 rfl rfl,
   (C7_login_spec exState1 42).2.2 ⟨"Alice", 100⟩ rfl rfl⟩

/-- Claim C8: `view_transaction_history` is a pure query returning the active
account's stored log — an Opening record followed by the later appends, i.e.
insertion order — and the empty list when no session is active. -/
theorem C8_view_history {c : Nat} {s : SavingsAccount} (h : Reachable c s) :
    (s.current_account_number = none → s.view_transaction_history = []) ∧
    (∀ n, s.current_account_number = some n →
      ∃ a t rest, s.transaction_history n = some (⟨TxType.Opening, a, t⟩ :: rest) ∧
        s.view_transaction_history = ⟨TxType.Opening, a, t⟩ :: rest) := by
  constructor
  · intro hn
    simp [SavingsAccount.view_transaction_history, hn]
  · intro n hn
    have hi := reachable_ledgerInv h
    have hsome := hi.session_ok n hn
    obtain ⟨l, hl⟩ := Option.isSome_iff_exists.mp ((hi.keys_eq n).mp hsome)
    obtain ⟨a, t, rest, rfl, -⟩ := hi.log_shape n l hl
    exact ⟨a, t, rest, hl, by simp [SavingsAccount.view_transaction_history, hn, hl]⟩

/-- Concrete runs of claim C8: empty result with no session, and the full
log (Opening first) when logged in. -/
theorem C8_witness :
    exState1.view_transaction_history = [] ∧
    ∃ a t rest, exState2.transaction_history 42 = some (⟨TxType.Opening, a, t⟩ :: rest) ∧
      exState2.view_transaction_history = ⟨TxType.Opening, a, t⟩ :: rest :=
  ⟨(C8_view_history (Reachable.openNew Reachable.init : Reachable 42 exState1)).1 rfl,
   (C8_view_history
      (Reachable.login (Reachable.openNew Reachable.init) : Reachable 42 exState2)).2
      42 rfl⟩

/-- Claim C9 as stated is false: `deposit` performs no positivity check, so a
reachable log can hold a Deposit record with a non-positive amount.  Here a
deposit of −1 is accepted and logged. -/
theorem C9_counterexample :
    ¬ (∀ (c : Nat) (s : SavingsAccount), Reachable c s →
        ∀ n l, s.transaction_history n = some l →
          ∀ r ∈ l, (r.type = TxType.Deposit ∨ r.type = TxType.Withdrawal) →
            0 < r.amount) := by
  intro hclaim
  have hr2 : Reachable 42 exState2 :=
    Reachable.login (Reachable.openNew Reachable.init)
  have hdep : exState2.deposit (-1) 1 = some (true, exStateNeg) := rfl
  have hr3 : Reachable 42 exStateNeg := Reachable.deposit hr2 hdep
  have hlog : exStateNeg.transaction_history 42
      = some [⟨TxType.Opening, 100, 0⟩, ⟨TxType.Deposit, -1, 1⟩] := rfl
  have h1 := hclaim 42 _ hr3 42 _ hlog ⟨TxType.Deposit, -1, 1⟩ (by simp) (Or.inl rfl)
  have h2 : (0 : Rat) < -1 := h1
  norm_num at h2

/-- Claim C9 (amended): every Opening record's amount equals the initial
deposit passed to that `open_new_account` call (a per-call fact, since the
state does not retain the call arguments); and provided every deposit and
withdrawal amount in the operation sequence is strictly positive, every
non-Opening record in every reachable log has a strictly positive amount. -/
theorem C9_record_amounts {c : Nat} {s : SavingsAccount} (h : ReachablePos c s) :
    (∀ (s₀ : SavingsAccount) (name : String) (d : Rat) (t : Nat),
      ((s₀.open_new_account name d t).2).transaction_history s₀.generate_account_number
        = some [⟨TxType.Opening, d, t⟩]) ∧
    (∀ n l, s.transaction_history n = some l →
      ∀ r ∈ l, r.type ≠ TxType.Opening → 0 < r.amount) := by
  refine ⟨?_, reachablePos_pos h⟩
  intro s₀ name d t
  simp [SavingsAccount.open_new_account, SavingsAccount.generate_account_number]

/-- Concrete run of the amended claim C9 after a positive deposit of 5. -/
theorem C9_witness :
    ((exState0.open_new_account "Alice" 100 0).2).transaction_history
        exState0.generate_account_number = some [⟨TxType.Opening, 100, 0⟩] ∧
    0 < (⟨TxType.Deposit, (5 : Rat), 1⟩ : TransactionRecord).amount :=
  ⟨(C9_record_amounts
      (ReachablePos.deposit
        (ReachablePos.login (ReachablePos.openNew ReachablePos.init)
          : ReachablePos 42 exState2)
        (by norm_num : (0 : Rat) < 5)
        (rfl : exState2.deposit 5 1 = some (true, exState3)))).1 exState0 "Alice" 100 0,
   (C9_record_amounts
      (ReachablePos.deposit
        (ReachablePos.login (ReachablePos.openNew ReachablePos.init)
          : ReachablePos 42 exState2)
        (by norm_num : (0 : Rat) < 5)
        (rfl : exState2.deposit 5 1 = some (true, exState3)))).2
      42 [⟨TxType.Opening, 100, 0⟩, ⟨TxType.Deposit, 5, 1⟩] rfl
      ⟨TxType.Deposit, 5, 1⟩ (by simp) (by simp)⟩

/-- Claim C10: frame property — a successful `deposit` (always, once the
session and account exist) or `withdraw` (when funds suffice) changes only
the active account's balance, appends exactly one record to that account's
log, and leaves the holder name, every other slot of both dicts, and the
session slot untouched. -/
theorem C10_frame {s : SavingsAccount} {n : Nat} {info : AccountInfo}
    {log : List TransactionRecord} (hcur : s.current_account_number = some n)
    (hacc : s.savings_accounts n = some info) (hlog : s.transaction_history n = some log)
    (a : Rat) (t : Nat) :
    (∃ s', s.deposit a t = some (true, s') ∧
      s'.current_account_number = s.current_account_number ∧
      s'.savings_accounts n = some ⟨info.name, info.balance + a⟩ ∧
      s'.transaction_history n = some (log ++ [⟨TxType.Deposit, a, t⟩]) ∧
      ∀ m, m ≠ n → s'.savings_accounts m = s.savings_accounts m ∧
        s'.transaction_history m = s.transaction_history m) ∧
    (a ≤ info.balance → ∃ s', s.withdraw a t = some (true, s') ∧
      s'.current_account_number = s.current_account_number ∧
      s'.savings_accounts n = some ⟨info.name, info.balance - a⟩ ∧
      s'.transaction_history n = some (log ++ [⟨TxType.Withdrawal, a, t⟩]) ∧
      ∀ m, m ≠ n → s'.savings_accounts m = s.savings_accounts m ∧
        s'.transaction_history m = s.transaction_history m) := by
  constructor
  · refine ⟨_, SavingsAccount.deposit_success hcur hacc hlog a t, rfl, by simp, by simp, ?_⟩
    intro m hm
    exact ⟨by simp [hm], by simp [hm]⟩
  · intro hle
    refine ⟨_, SavingsAccount.withdraw_success hcur hacc hlog hle t, rfl, by simp,
      by simp, ?_⟩
    intro m hm
    exact ⟨by simp [hm], by simp [hm]⟩

/-- Concrete run of claim C10: depositing or withdrawing 30 while logged in
as Alice. -/
theorem C10_witness :
    (∃ s', exState2.deposit 30 1 = some (true, s') ∧
      s'.current_account_number = exState2.current_account_number ∧
      s'.savings_accounts 42 = some ⟨"Alice", (100 : Rat) + 30⟩ ∧
      s'.transaction_history 42
        = some ([⟨TxType.Opening, 100, 0⟩] ++ [⟨TxType.Deposit, 30, 1⟩]) ∧
      ∀ m, m ≠ 42 → s'.savings_accounts m = exState2.savings_accounts m ∧
        s'.transaction_history m = exState2.transaction_history m) ∧
    ((30 : Rat) ≤ 100 → ∃ s', exState2.withdraw 30 1 = some (true, s') ∧
      s'.current_account_number = exState2.current_account_number ∧
      s'.savings_accounts 42 = some ⟨"Alice", (100 : Rat) - 30⟩ ∧
      s'.transaction_history 42
        = some ([⟨TxType.Opening, 100, 0⟩] ++ [⟨TxType.Withdrawal, 30, 1⟩]) ∧
      ∀ m, m ≠ 42 → s'.savings_accounts m = exState2.savings_accounts m ∧
        s'.transaction_history m = exState2.transaction_history m) :=
  C10_frame (rfl : exState2.current_account_number = some 42)
    (rfl : exState2.savings_accounts 42 = some ⟨"Alice", 100⟩)
    (rfl : exState2.transaction_history 42 = some [⟨TxType.Opening, 100, 0⟩]) 30 1
